import Mathlib

/-!
Shallow embedding of `lnwire/accept_channel.go` (the AcceptChannel wire
codec) together with the TLV conventions it relies on.

Bytes are modelled as natural numbers; byte strings as `List Nat`.
Functions from `accept_channel.go` (`Encode`, `Decode`,
`packShutdownScript`, `parseShutdownScript`) are translated from the source.
Helpers that live elsewhere in the repository (the scalar field codec, the
TLV record codec, the public-key codec) are modelled from the spec, as
marked on each definition.
-/

set_option maxRecDepth 100000

deriving instance DecidableEq for Except

/-- Error taxonomy of the codec, following the spec's section 7:
truncation, malformed public key, missing mandatory shutdown-script
record, a non-canonical or structurally invalid TLV stream, and a
pack-side failure. -/
inductive WireError where
  | truncated
  | malformedPublicKey
  | missingShutdownScriptRecord
  | tlvStreamError
  | packFailure
deriving DecidableEq, Repr

/-- Big-endian bytes of `v`, exactly `w` bytes wide (most significant
first); the value is taken modulo `256 ^ w`. -/
def be : Nat → Nat → List Nat
  | 0, _ => []
  | w + 1, v => be w (v / 256) ++ [v % 256]

/-- The numeric value of a big-endian byte string. -/
def beVal (l : List Nat) : Nat :=
  l.foldl (fun a b => 256 * a + b) 0

theorem length_be (w v : Nat) : (be w v).length = w := by
  induction w generalizing v with
  | zero => rfl
  | succ w ih => simp [be, ih]

theorem beVal_append_one (l : List Nat) (b : Nat) :
    beVal (l ++ [b]) = 256 * beVal l + b := by
  simp [beVal, List.foldl_append]

theorem beVal_be (w v : Nat) (h : v < 256 ^ w) : beVal (be w v) = v := by
  induction w generalizing v with
  | zero =>
    simp [be, beVal]
    omega
  | succ w ih =>
    have hdiv : v / 256 < 256 ^ w := by
      rw [Nat.div_lt_iff_lt_mul (by norm_num : 0 < 256)]
      calc v < 256 ^ (w + 1) := h
        _ = 256 ^ w * 256 := by ring
    rw [be, beVal_append_one, ih _ hdiv]
    omega

theorem be_two (v : Nat) : be 2 v = [v / 256 % 256, v % 256] := by
  simp [be]

/-- Modelled from the spec: the TLV convention of section 6 stores type
ids and lengths as variable-size integers ("varint"), the Lightning
BigSize form: one byte below 253, marker 253 plus two big-endian bytes
up to 65535, marker 254 plus four bytes below 2^32, marker 255 plus
eight bytes beyond. -/
def bigSize (v : Nat) : List Nat :=
  if v < 253 then [v]
  else if v < 65536 then 253 :: be 2 v
  else if v < 4294967296 then 254 :: be 4 v
  else 255 :: be 8 v

/-- Modelled from the spec: decoding of a BigSize varint from the front
of a byte string, rejecting non-minimal encodings (the stream must be
canonical), and returning the unread remainder. -/
def decodeBigSize : List Nat → Option (Nat × List Nat)
  | [] => none
  | b :: r =>
    if b < 253 then some (b, r)
    else if b = 253 then
      if 2 ≤ r.length then
        if 253 ≤ beVal (r.take 2) then some (beVal (r.take 2), r.drop 2) else none
      else none
    else if b = 254 then
      if 4 ≤ r.length then
        if 65536 ≤ beVal (r.take 4) then some (beVal (r.take 4), r.drop 4) else none
      else none
    else
      if 8 ≤ r.length then
        if 4294967296 ≤ beVal (r.take 8) then some (beVal (r.take 8), r.drop 8) else none
      else none

theorem decodeBigSize_bigSize (v : Nat) (r : List Nat) (h : v < 2 ^ 64) :
    decodeBigSize (bigSize v ++ r) = some (v, r) := by
  unfold bigSize
  by_cases h1 : v < 253
  · simp [decodeBigSize, h1]
  · by_cases h2 : v < 65536
    · have hl : (be 2 v).length = 2 := length_be 2 v
      have ht : (be 2 v ++ r).take 2 = be 2 v := List.take_left' hl
      have hd : (be 2 v ++ r).drop 2 = r := List.drop_left' hl
      have hv : beVal (be 2 v) = v := beVal_be 2 v (by simpa using h2)
      rw [if_neg h1, if_pos h2, List.cons_append]
      simp [decodeBigSize, ht, hd, hv, hl, Nat.le_of_not_lt h1]
    · by_cases h3 : v < 4294967296
      · have hl : (be 4 v).length = 4 := length_be 4 v
        have ht : (be 4 v ++ r).take 4 = be 4 v := List.take_left' hl
        have hd : (be 4 v ++ r).drop 4 = r := List.drop_left' hl
        have hv : beVal (be 4 v) = v := beVal_be 4 v (by simpa using h3)
        rw [if_neg h1, if_neg h2, if_pos h3, List.cons_append]
        simp [decodeBigSize, ht, hd, hv, hl, Nat.le_of_not_lt h2]
      · have hl : (be 8 v).length = 8 := length_be 8 v
        have ht : (be 8 v ++ r).take 8 = be 8 v := List.take_left' hl
        have hd : (be 8 v ++ r).drop 8 = r := List.drop_left' hl
        have hv : beVal (be 8 v) = v := beVal_be 8 v (by simpa using h)
        rw [if_neg h1, if_neg h2, if_neg h3, List.cons_append]
        simp [decodeBigSize, ht, hd, hv, hl, Nat.le_of_not_lt h3]

/-- Modelled from the spec: structural decoding of a whole TLV blob into
its records, each a (type id, payload) pair. The fuel argument bounds the
recursion; a record consumes at least one byte, so fuel equal to the
input length always suffices. -/
def decodeRecordsF : Nat → List Nat → Option (List (Nat × List Nat))
  | _, [] => some []
  | 0, _ :: _ => none
  | fuel + 1, b :: r =>
    match decodeBigSize (b :: r) with
    | none => none
    | some (t, s1) =>
      match decodeBigSize s1 with
      | none => none
      | some (len, s2) =>
        if len ≤ s2.length then
          match decodeRecordsF fuel (s2.drop len) with
          | none => none
          | some recs => some ((t, s2.take len) :: recs)
        else none

/-- Modelled from the spec: the record structure of a TLV blob, when the
blob is structurally well formed. -/
def decodeRecordList (s : List Nat) : Option (List (Nat × List Nat)) :=
  decodeRecordsF s.length s

theorem decodeRecordsF_mono (f : Nat) :
    ∀ (f2 : Nat) (s : List Nat) (recs : List (Nat × List Nat)), f ≤ f2 →
      decodeRecordsF f s = some recs → decodeRecordsF f2 s = some recs := by
  induction f with
  | zero =>
    intro f2 s recs _ hdec
    cases s with
    | nil => cases f2 <;> simpa [decodeRecordsF] using hdec
    | cons b r => simp [decodeRecordsF] at hdec
  | succ f ih =>
    intro f2 s recs hle hdec
    cases s with
    | nil => cases f2 <;> simpa [decodeRecordsF] using hdec
    | cons b r =>
      obtain ⟨f3, rfl⟩ : ∃ k, f2 = k + 1 := ⟨f2 - 1, by omega⟩
      rw [decodeRecordsF] at hdec ⊢
      cases h1 : decodeBigSize (b :: r) with
      | none => rw [h1] at hdec; simp at hdec
      | some p1 =>
        obtain ⟨t, s1⟩ := p1
        rw [h1] at hdec
        dsimp only at hdec ⊢
        cases h2 : decodeBigSize s1 with
        | none => rw [h2] at hdec; simp at hdec
        | some p2 =>
          obtain ⟨len, s2⟩ := p2
          rw [h2] at hdec
          dsimp only at hdec ⊢
          by_cases h3 : len ≤ s2.length
          · rw [if_pos h3] at hdec ⊢
            cases h4 : decodeRecordsF f (s2.drop len) with
            | none => rw [h4] at hdec; simp at hdec
            | some recs2 =>
              rw [h4] at hdec
              rw [ih f3 (s2.drop len) recs2 (by omega) h4]
              exact hdec
          · rw [if_neg h3] at hdec; simp at hdec

/-- Modelled from the spec: strict ascending-order check on the types of
the records that follow a record of type t. -/
def ascendingAfter : Nat → List (Nat × List Nat) → Bool
  | _, [] => true
  | t, (t2, _) :: rest => decide (t < t2) && ascendingAfter t2 rest

/-- Modelled from the spec: a record list is canonical when its type ids
are strictly ascending. -/
def recordsCanonical : List (Nat × List Nat) → Bool
  | [] => true
  | (t, _) :: rest => ascendingAfter t rest

/-- First record payload of a given type, if any. -/
def lookupRecord (t : Nat) : List (Nat × List Nat) → Option (List Nat)
  | [] => none
  | (t2, v) :: rest => if t2 = t then some v else lookupRecord t rest

/-- Modelled from the spec: ExtraOpaqueData.ExtractRecords decodes the
whole blob as a canonical TLV stream (strictly ascending type ids,
structurally valid records) and exposes the parsed records; any other
blob is a stream error. -/
def ExtractRecords (blob : List Nat) : Except WireError (List (Nat × List Nat)) :=
  match decodeRecordList blob with
  | none => .error .tlvStreamError
  | some recs => if recordsCanonical recs then .ok recs else .error .tlvStreamError

/-- Modelled from the spec: ExtraOpaqueData.PackRecords emits each record
as type id, a length varint covering the payload, and the payload
verbatim. -/
def PackRecords (recs : List (Nat × List Nat)) : List Nat :=
  (recs.map (fun p => bigSize p.1 ++ bigSize p.2.length ++ p.2)).flatten

/-- The TLV type id of the delivery-address (upfront shutdown script)
record: the lowest type id used by this message family. -/
def DeliveryAddrType : Nat := 0

/-- packShutdownScript, translated from accept_channel.go: always packs
the upfront shutdown script (a Go byte slice, possibly nil, modelled as
an optional byte string) as a TLV record — even when it is empty — and
appends the extra opaque data blob unchanged. The TLV packing of a
single variable-size byte record cannot fail, so the error path of the
source is never taken. -/
def packShutdownScript (addr : Option (List Nat)) (extraData : List Nat) :
    Except WireError (List Nat) :=
  .ok (PackRecords [(DeliveryAddrType, addr.getD [])] ++ extraData)

/-- parseShutdownScript, translated from accept_channel.go. The result
mirrors the Go triple (DeliveryAddress, ExtraOpaqueData, error): a nil
slice is `none`, a present (possibly empty) slice is `some`, and the
error is an optional WireError. On an empty blob it returns no address
and the blob itself; on a blob lacking the mandatory leading address
record it fails; otherwise it returns the address payload and the blob
with the first addrLen+2 bytes removed. -/
def parseShutdownScript (tlvRecords : List Nat) :
    Option (List Nat) × Option (List Nat) × Option WireError :=
  if tlvRecords.length = 0 then (none, some tlvRecords, none)
  else
    match ExtractRecords tlvRecords with
    | .error e => (none, none, some e)
    | .ok recs =>
      match lookupRecord DeliveryAddrType recs with
      | none => (none, none, some .missingShutdownScriptRecord)
      | some addr => (some addr, some (tlvRecords.drop (addr.length + 2)), none)

/-- The AcceptChannel message, translated from accept_channel.go.
Numeric fields are natural numbers read and written at their fixed wire
widths; public keys fields are their 33-byte compressed encodings; the
upfront shutdown script is optional to mirror a nil-able Go slice. -/
structure AcceptChannel where
  PendingChannelID : List Nat
  DustLimit : Nat
  MaxValueInFlight : Nat
  ChannelReserve : Nat
  HtlcMinimum : Nat
  MinAcceptDepth : Nat
  CsvDelay : Nat
  MaxAcceptedHTLCs : Nat
  FundingKey : List Nat
  RevocationPoint : List Nat
  PaymentPoint : List Nat
  DelayedPaymentPoint : List Nat
  HtlcPoint : List Nat
  FirstCommitmentPoint : List Nat
  UpfrontShutdownScript : Option (List Nat)
  ExtraData : List Nat
deriving DecidableEq, Repr

/-- Modelled from the spec: the elliptic-curve library is an external
collaborator treated as an opaque codec that rejects 33-byte strings
that do not encode a valid curve point. Validity is abstracted here to
the compressed-encoding shape the spec names (exact length 33 and a
parity first byte of 2 or 3); the on-curve test on the x coordinate is
out of the spec's scope and is not modelled. -/
def validPoint (b : List Nat) : Bool :=
  b.length == 33 && (b.headD 0 == 2 || b.headD 0 == 3)

theorem validPoint_length (b : List Nat) (h : validPoint b = true) :
    b.length = 33 := by
  simp [validPoint] at h
  exact h.1

/-- Modelled from the spec: a fixed-size read from the front of the
input; fails with Truncated when fewer bytes remain than required. -/
def readBytes (n : Nat) (s : List Nat) : Except WireError (List Nat × List Nat) :=
  if n ≤ s.length then .ok (s.take n, s.drop n) else .error .truncated

/-- Modelled from the spec: a fixed-width big-endian unsigned read. -/
def readUint (w : Nat) (s : List Nat) : Except WireError (Nat × List Nat) :=
  match readBytes w s with
  | .error e => .error e
  | .ok (b, rest) => .ok (beVal b, rest)

/-- Modelled from the spec: a compressed public-key read: 33 bytes that
must encode a valid curve point, else MalformedPublicKey. -/
def readPublicKey (s : List Nat) : Except WireError (List Nat × List Nat) :=
  match readBytes 33 s with
  | .error e => .error e
  | .ok (b, rest) => if validPoint b then .ok (b, rest) else .error .malformedPublicKey

/-- Modelled from the spec: the TLV tail travels as a length-prefixed
opaque byte string; the prefix is a two-byte big-endian length. -/
def readBlob (s : List Nat) : Except WireError (List Nat × List Nat) :=
  match readUint 2 s with
  | .error e => .error e
  | .ok (len, rest) =>
    match readBytes len rest with
    | .error e => .error e
    | .ok (blob, rest2) => .ok (blob, rest2)

/-- AcceptChannel.Decode, translated from accept_channel.go: reads the
fixed fields in source order, then the TLV blob, then splits the blob
with parseShutdownScript; any sub-read failure aborts with that error.
Returns the decoded message and the unread remainder of the input. -/
def AcceptChannel.Decode (s : List Nat) (pver : Nat) :
    Except WireError (AcceptChannel × List Nat) := do
  let (cid, s1) ← readBytes 32 s
  let (dust, s2) ← readUint 8 s1
  let (mvif, s3) ← readUint 8 s2
  let (resv, s4) ← readUint 8 s3
  let (hmin, s5) ← readUint 8 s4
  let (mad, s6) ← readUint 4 s5
  let (csv, s7) ← readUint 2 s6
  let (mah, s8) ← readUint 2 s7
  let (fk, s9) ← readPublicKey s8
  let (rp, s10) ← readPublicKey s9
  let (pp, s11) ← readPublicKey s10
  let (dpp, s12) ← readPublicKey s11
  let (hp, s13) ← readPublicKey s12
  let (fcp, s14) ← readPublicKey s13
  let (tlvRecords, s15) ← readBlob s14
  match parseShutdownScript tlvRecords with
  | (_, _, some e) => .error e
  | (addr, rem, none) =>
    .ok ({ PendingChannelID := cid, DustLimit := dust, MaxValueInFlight := mvif,
           ChannelReserve := resv, HtlcMinimum := hmin, MinAcceptDepth := mad,
           CsvDelay := csv, MaxAcceptedHTLCs := mah, FundingKey := fk,
           RevocationPoint := rp, PaymentPoint := pp, DelayedPaymentPoint := dpp,
           HtlcPoint := hp, FirstCommitmentPoint := fcp,
           UpfrontShutdownScript := addr, ExtraData := rem.getD [] }, s15)

/-- The state Encode works on: the receiver (taken by pointer in the
source) and the output buffer. Encode only ever appends to the buffer;
the receiver component makes the frame property statable. -/
structure EncState where
  receiver : AcceptChannel
  buf : List Nat
deriving DecidableEq, Repr

/-- Modelled from the spec: WriteBytes appends bytes to the buffer. -/
def WriteBytes (buf b : List Nat) : List Nat := buf ++ b

/-- Modelled from the spec: WriteSatoshi writes an 8-byte amount. -/
def WriteSatoshi (buf : List Nat) (v : Nat) : List Nat := WriteBytes buf (be 8 v)

/-- Modelled from the spec: WriteMilliSatoshi writes an 8-byte amount. -/
def WriteMilliSatoshi (buf : List Nat) (v : Nat) : List Nat := WriteBytes buf (be 8 v)

/-- Modelled from the spec: WriteUint32 writes 4 big-endian bytes. -/
def WriteUint32 (buf : List Nat) (v : Nat) : List Nat := WriteBytes buf (be 4 v)

/-- Modelled from the spec: WriteUint16 writes 2 big-endian bytes. -/
def WriteUint16 (buf : List Nat) (v : Nat) : List Nat := WriteBytes buf (be 2 v)

/-- Modelled from the spec: WritePublicKey writes the 33-byte compressed
encoding of the key, which is how keys are carried in the model. -/
def WritePublicKey (buf k : List Nat) : List Nat := WriteBytes buf k

/-- AcceptChannel.Encode, translated from accept_channel.go: packs the
upfront shutdown script with the extra data into one TLV blob, then
writes the fixed fields in source order, then the blob as a
length-prefixed byte string (modelled from the spec: two-byte length, so
an over-long blob is a pack failure). Returns the Go error value
together with the final state. -/
def AcceptChannel.Encode (a : AcceptChannel) (w : List Nat) (pver : Nat) :
    Option WireError × EncState :=
  match packShutdownScript a.UpfrontShutdownScript a.ExtraData with
  | .error e => (some e, ⟨a, w⟩)
  | .ok tlvRecords =>
    let w1 := WriteBytes w a.PendingChannelID
    let w2 := WriteSatoshi w1 a.DustLimit
    let w3 := WriteMilliSatoshi w2 a.MaxValueInFlight
    let w4 := WriteSatoshi w3 a.ChannelReserve
    let w5 := WriteMilliSatoshi w4 a.HtlcMinimum
    let w6 := WriteUint32 w5 a.MinAcceptDepth
    let w7 := WriteUint16 w6 a.CsvDelay
    let w8 := WriteUint16 w7 a.MaxAcceptedHTLCs
    let w9 := WritePublicKey w8 a.FundingKey
    let w10 := WritePublicKey w9 a.RevocationPoint
    let w11 := WritePublicKey w10 a.PaymentPoint
    let w12 := WritePublicKey w11 a.DelayedPaymentPoint
    let w13 := WritePublicKey w12 a.HtlcPoint
    let w14 := WritePublicKey w13 a.FirstCommitmentPoint
    if tlvRecords.length < 65536 then
      (none, ⟨a, WriteBytes w14 (be 2 tlvRecords.length ++ tlvRecords)⟩)
    else
      (some .packFailure, ⟨a, w14⟩)

/-- Encoding into an empty buffer, as the message transport does:
either the error or the produced bytes. -/
def encodeBytes (a : AcceptChannel) (pver : Nat) : Except WireError (List Nat) :=
  match AcceptChannel.Encode a [] pver with
  | (some e, _) => .error e
  | (none, st) => .ok st.buf

theorem readBytes_append (n : Nat) (l r : List Nat) (h : l.length = n) :
    readBytes n (l ++ r) = .ok (l, r) := by
  subst h
  simp [readBytes, List.take_left, List.drop_left]

theorem readUint_be (w v : Nat) (r : List Nat) (h : v < 256 ^ w) :
    readUint w (be w v ++ r) = .ok (v, r) := by
  simp [readUint, readBytes_append w (be w v) r (length_be w v), beVal_be w v h]

theorem readUint_append (w : Nat) (l r : List Nat) (h : l.length = w) :
    readUint w (l ++ r) = .ok (beVal l, r) := by
  simp [readUint, readBytes_append w l r h]

theorem readPublicKey_valid (k r : List Nat) (h : validPoint k = true) :
    readPublicKey (k ++ r) = .ok (k, r) := by
  simp [readPublicKey, readBytes_append 33 k r (validPoint_length k h), h]

theorem readPublicKey_invalid (k r : List Nat) (hl : k.length = 33)
    (h : validPoint k = false) :
    readPublicKey (k ++ r) = .error .malformedPublicKey := by
  simp [readPublicKey, readBytes_append 33 k r hl, h]

theorem readBlob_append (blob r : List Nat) (h : blob.length < 65536) :
    readBlob (be 2 blob.length ++ (blob ++ r)) = .ok (blob, r) := by
  have h2 : blob.length < 256 ^ 2 := by norm_num; omega
  simp [readBlob, readUint_be 2 blob.length (blob ++ r) h2,
    readBytes_append blob.length blob r rfl]

theorem bindOk {α β : Type} (v : α) (f : α → Except WireError β) :
    (Bind.bind (Except.ok v) f) = f v := rfl

theorem decodeRecordList_record (t : Nat) (v rest : List Nat)
    (recs : List (Nat × List Nat)) (ht : t < 253) (hv : v.length < 2 ^ 64)
    (hrest : decodeRecordList rest = some recs) :
    decodeRecordList (t :: (bigSize v.length ++ (v ++ rest))) =
      some ((t, v) :: recs) := by
  have hlen : (t :: (bigSize v.length ++ (v ++ rest))).length =
      ((bigSize v.length ++ (v ++ rest)).length) + 1 := by
    simp
  rw [decodeRecordList, hlen, decodeRecordsF]
  have h1 : decodeBigSize (t :: (bigSize v.length ++ (v ++ rest))) =
      some (t, bigSize v.length ++ (v ++ rest)) := by
    simp [decodeBigSize, ht]
  rw [h1]
  dsimp only
  rw [decodeBigSize_bigSize v.length (v ++ rest) hv]
  dsimp only
  have h3 : v.length ≤ (v ++ rest).length := by
    rw [List.length_append]
    omega
  rw [if_pos h3]
  have h4 : decodeRecordsF (bigSize v.length ++ (v ++ rest)).length (List.drop v.length (v ++ rest)) =
      some recs := by
    rw [List.drop_left]
    refine decodeRecordsF_mono rest.length _ rest recs ?_ hrest
    rw [List.length_append, List.length_append]
    omega
  rw [h4]
  dsimp only
  rw [List.take_left]

theorem lookupRecord_zero_of_ascending (t : Nat) (recs : List (Nat × List Nat))
    (h : ascendingAfter t recs = true) : lookupRecord 0 recs = none := by
  induction recs generalizing t with
  | nil => rfl
  | cons p rest ih =>
    obtain ⟨t2, v2⟩ := p
    rw [ascendingAfter] at h
    simp only [Bool.and_eq_true, decide_eq_true_eq] at h
    rw [lookupRecord, if_neg (by omega)]
    exact ih t2 h.2

theorem bigSize_small (v : Nat) (h : v < 253) : bigSize v = [v] := by
  rw [bigSize, if_pos h]

theorem parse_pack (addr extra : List Nat) (recs : List (Nat × List Nat))
    (hlen : addr.length ≤ 252)
    (hx : decodeRecordList extra = some recs)
    (hasc : ascendingAfter 0 recs = true) :
    parseShutdownScript (0 :: (bigSize addr.length ++ (addr ++ extra))) =
      (some addr, some extra, none) := by
  have hrec := decodeRecordList_record 0 addr extra recs (by norm_num) (by omega) hx
  have hex : ExtractRecords (0 :: (bigSize addr.length ++ (addr ++ extra))) =
      .ok ((0, addr) :: recs) := by
    rw [ExtractRecords, hrec]
    simp [recordsCanonical, hasc]
  rw [parseShutdownScript, if_neg (by simp), hex]
  dsimp only
  rw [lookupRecord, if_pos (show (0 : Nat) = DeliveryAddrType from rfl)]
  have hdrop : List.drop (addr.length + 2)
      (0 :: (bigSize addr.length ++ (addr ++ extra))) = extra := by
    rw [bigSize_small addr.length (by omega), List.singleton_append,
      show addr.length + 2 = addr.length + 1 + 1 from rfl,
      List.drop_succ_cons, List.drop_succ_cons, List.drop_left]
  dsimp only
  rw [hdrop]

theorem Decode_concat (pver : Nat) (cid : List Nat) (d mv cr hm mad csv mah : Nat)
    (k1 k2 k3 k4 k5 k6 : List Nat) (blob rest : List Nat)
    (hcid : cid.length = 32)
    (hd : d < 2 ^ 64) (hmv : mv < 2 ^ 64) (hcr : cr < 2 ^ 64) (hhm : hm < 2 ^ 64)
    (hmad : mad < 2 ^ 32) (hcsv : csv < 2 ^ 16) (hmah : mah < 2 ^ 16)
    (h1 : validPoint k1 = true) (h2 : validPoint k2 = true) (h3 : validPoint k3 = true)
    (h4 : validPoint k4 = true) (h5 : validPoint k5 = true) (h6 : validPoint k6 = true)
    (hblob : blob.length < 65536) :
    AcceptChannel.Decode (cid ++ (be 8 d ++ (be 8 mv ++ (be 8 cr ++ (be 8 hm ++
        (be 4 mad ++ (be 2 csv ++ (be 2 mah ++ (k1 ++ (k2 ++ (k3 ++ (k4 ++ (k5 ++ (k6 ++
        (be 2 blob.length ++ (blob ++ rest)))))))))))))))) pver =
      match parseShutdownScript blob with
      | (_, _, some e) => .error e
      | (addr, rem, none) =>
        .ok ({ PendingChannelID := cid, DustLimit := d, MaxValueInFlight := mv,
               ChannelReserve := cr, HtlcMinimum := hm, MinAcceptDepth := mad,
               CsvDelay := csv, MaxAcceptedHTLCs := mah, FundingKey := k1,
               RevocationPoint := k2, PaymentPoint := k3, DelayedPaymentPoint := k4,
               HtlcPoint := k5, FirstCommitmentPoint := k6,
               UpfrontShutdownScript := addr, ExtraData := rem.getD [] }, rest) := by
  have e8 : (256 : Nat) ^ 8 = 2 ^ 64 := by norm_num
  have e4 : (256 : Nat) ^ 4 = 2 ^ 32 := by norm_num
  have e2 : (256 : Nat) ^ 2 = 2 ^ 16 := by norm_num
  have hd8 : d < 256 ^ 8 := e8 ▸ hd
  have hmv8 : mv < 256 ^ 8 := e8 ▸ hmv
  have hcr8 : cr < 256 ^ 8 := e8 ▸ hcr
  have hhm8 : hm < 256 ^ 8 := e8 ▸ hhm
  have hmad4 : mad < 256 ^ 4 := e4 ▸ hmad
  have hcsv2 : csv < 256 ^ 2 := e2 ▸ hcsv
  have hmah2 : mah < 256 ^ 2 := e2 ▸ hmah
  simp only [AcceptChannel.Decode, bindOk,
    readBytes_append _ _ _ hcid,
    readUint_be _ _ _ hd8, readUint_be _ _ _ hmv8, readUint_be _ _ _ hcr8,
    readUint_be _ _ _ hhm8, readUint_be _ _ _ hmad4, readUint_be _ _ _ hcsv2,
    readUint_be _ _ _ hmah2,
    readPublicKey_valid _ _ h1, readPublicKey_valid _ _ h2, readPublicKey_valid _ _ h3,
    readPublicKey_valid _ _ h4, readPublicKey_valid _ _ h5, readPublicKey_valid _ _ h6,
    readBlob_append _ _ hblob]

theorem encodeBytes_eq (a : AcceptChannel) (blob : List Nat) (pver : Nat)
    (hp : packShutdownScript a.UpfrontShutdownScript a.ExtraData = .ok blob)
    (hlen : blob.length < 65536) :
    encodeBytes a pver = .ok (a.PendingChannelID ++ (be 8 a.DustLimit ++
      (be 8 a.MaxValueInFlight ++ (be 8 a.ChannelReserve ++ (be 8 a.HtlcMinimum ++
      (be 4 a.MinAcceptDepth ++ (be 2 a.CsvDelay ++ (be 2 a.MaxAcceptedHTLCs ++
      (a.FundingKey ++ (a.RevocationPoint ++ (a.PaymentPoint ++
      (a.DelayedPaymentPoint ++ (a.HtlcPoint ++ (a.FirstCommitmentPoint ++
      (be 2 blob.length ++ blob))))))))))))))) := by
  have hb : PackRecords [(DeliveryAddrType, a.UpfrontShutdownScript.getD [])] ++
      a.ExtraData = blob := by
    simpa [packShutdownScript] using hp
  simp [encodeBytes, AcceptChannel.Encode, packShutdownScript, hb, hlen,
    WriteBytes, WriteSatoshi, WriteMilliSatoshi, WriteUint32, WriteUint16,
    WritePublicKey, List.append_assoc]

theorem bindErr {α β : Type} (e : WireError) (f : α → Except WireError β) :
    (Bind.bind (Except.error e) f) = (Except.error e : Except WireError β) := rfl

/-- A 33-byte string the model accepts as a valid compressed point. -/
def zKey : List Nat := 2 :: List.replicate 32 0

/-- The spec's section-8 scenario message: zero channel id, the listed
numeric values, six valid keys, an explicitly empty shutdown script and
no extra data. -/
def scenarioMsg : AcceptChannel :=
  { PendingChannelID := List.replicate 32 0, DustLimit := 546,
    MaxValueInFlight := 1000000000, ChannelReserve := 9835, HtlcMinimum := 1,
    MinAcceptDepth := 3, CsvDelay := 144, MaxAcceptedHTLCs := 30,
    FundingKey := zKey, RevocationPoint := zKey, PaymentPoint := zKey,
    DelayedPaymentPoint := zKey, HtlcPoint := zKey, FirstCommitmentPoint := zKey,
    UpfrontShutdownScript := some [], ExtraData := [] }

/-- The scenario message with a 253-byte shutdown script, the shortest
script whose TLV length field no longer fits in one byte. -/
def longScriptMsg : AcceptChannel :=
  { scenarioMsg with UpfrontShutdownScript := some (List.replicate 253 0) }

/-- Claim C2: for every non-empty TLV blob that decodes as a canonical
record sequence whose first record's type id is not the delivery-address
type id, parseShutdownScript fails with MissingShutdownScriptRecord (and
so does a Decode that reaches such a blob): the address record must be
the first record. -/
theorem claim_C2 (blob : List Nat) (t : Nat) (v : List Nat)
    (recs : List (Nat × List Nat))
    (hdec : decodeRecordList blob = some ((t, v) :: recs))
    (hcanon : recordsCanonical ((t, v) :: recs) = true)
    (ht : t ≠ DeliveryAddrType) :
    parseShutdownScript blob = (none, none, some .missingShutdownScriptRecord) := by
  have hne : ¬blob.length = 0 := by
    intro h
    rw [List.length_eq_zero] at h
    subst h
    simp [decodeRecordList, decodeRecordsF] at hdec
  have hex : ExtractRecords blob = .ok ((t, v) :: recs) := by
    rw [ExtractRecords, hdec]
    simp [hcanon]
  rw [parseShutdownScript, if_neg hne, hex]
  dsimp only
  have hasc : ascendingAfter t recs = true := by
    simpa [recordsCanonical] using hcanon
  have hlook : lookupRecord DeliveryAddrType ((t, v) :: recs) = none := by
    rw [lookupRecord, if_neg ht]
    exact lookupRecord_zero_of_ascending t recs hasc
  rw [hlook]

theorem claim_C2_witness :
    decodeRecordList [1, 1, 170] = some [(1, [170])] ∧
    parseShutdownScript [1, 1, 170] =
      (none, none, some .missingShutdownScriptRecord) :=
  ⟨by decide, claim_C2 [1, 1, 170] 1 [170] [] (by decide) (by decide) (by decide)⟩

/-- Claim C4 (amended): for every blob that is the address record — one
type byte, one length byte and a payload of at most 252 bytes, so that
the length field fits one byte — followed by a tail of valid records in
ascending order with larger type ids, parseShutdownScript returns the
payload (possibly empty) and exactly the bytes after the record's full
encoded span, i.e. the tail. For payloads of 253 bytes or more the
length field is wider and the fixed addrLen+2 slice returns the wrong
remainder, so the claim's "for every address payload length" fails. -/
theorem claim_C4 (p tail : List Nat) (recs : List (Nat × List Nat))
    (hlen : p.length ≤ 252)
    (htail : decodeRecordList tail = some recs)
    (hasc : ascendingAfter 0 recs = true) :
    parseShutdownScript (DeliveryAddrType :: p.length :: (p ++ tail)) =
      (some p, some tail, none) := by
  have h := parse_pack p tail recs hlen htail hasc
  rw [bigSize_small p.length (by omega), List.singleton_append] at h
  exact h

theorem claim_C4_witness :
    decodeRecordList [3, 1, 8] = some [(3, [8])] ∧
    parseShutdownScript (DeliveryAddrType :: 2 :: ([5, 6] ++ [3, 1, 8])) =
      (some [5, 6], some [3, 1, 8], none) :=
  ⟨by decide, by
    have h := claim_C4 [5, 6] [3, 1, 8] [(3, [8])] (by decide) (by decide) (by decide)
    simpa using h⟩

/-- Claim C4 counterexample: the address record with a 253-byte payload
occupies 1 + 3 + 253 bytes (three-byte length field), and nothing
follows it, yet parseShutdownScript returns a two-byte remainder — not
the empty byte string that follows the record's span. -/
theorem claim_C4_cex :
    parseShutdownScript (0 :: 253 :: 0 :: 253 :: List.replicate 253 7) =
      (some (List.replicate 253 7), some [7, 7], none) ∧
    ([7, 7] : List Nat) ≠ [] := by
  exact ⟨by decide, by decide⟩

theorem packShutdownScript_eq (addr : Option (List Nat)) (extra : List Nat) :
    packShutdownScript addr extra =
      .ok (0 :: (bigSize (addr.getD []).length ++ ((addr.getD []) ++ extra))) := by
  have h0 : bigSize 0 = [0] := bigSize_small 0 (by norm_num)
  simp [packShutdownScript, PackRecords, DeliveryAddrType, h0, List.append_assoc]

/-- Claim C5 (amended): for every address payload of at most 252 bytes
and every tail of valid records in strictly ascending type order with
type ids above the address type, parsing the packed blob returns exactly
the payload and the tail: parseShutdownScript inverts packShutdownScript.
For a 253-byte or longer payload the remainder comes out wrong, so the
unrestricted "for every address payload" round trip fails. -/
theorem claim_C5 (p tail : List Nat) (recs : List (Nat × List Nat)) (blob : List Nat)
    (hlen : p.length ≤ 252)
    (htail : decodeRecordList tail = some recs)
    (hasc : ascendingAfter 0 recs = true)
    (hp : packShutdownScript (some p) tail = .ok blob) :
    parseShutdownScript blob = (some p, some tail, none) := by
  rw [packShutdownScript_eq (some p) tail] at hp
  obtain rfl : _ = blob := Except.ok.inj hp
  exact parse_pack p tail recs hlen htail hasc

theorem claim_C5_witness :
    packShutdownScript (some [7]) [2, 1, 4] = .ok [0, 1, 7, 2, 1, 4] ∧
    parseShutdownScript [0, 1, 7, 2, 1, 4] = (some [7], some [2, 1, 4], none) :=
  ⟨by decide,
    claim_C5 [7] [2, 1, 4] [(2, [4])] [0, 1, 7, 2, 1, 4] (by decide) (by decide)
      (by decide) (by decide)⟩

/-- Claim C5 counterexample: packing a 254-byte address with a valid
one-record tail and parsing the result does not give the tail back: the
fixed two-byte-header slice leaves the last two address bytes glued onto
the remainder. -/
theorem claim_C5_cex :
    packShutdownScript (some (List.replicate 254 9)) [1, 1, 5] =
      .ok (0 :: 253 :: 0 :: 254 :: (List.replicate 254 9 ++ [1, 1, 5])) ∧
    parseShutdownScript (0 :: 253 :: 0 :: 254 :: (List.replicate 254 9 ++ [1, 1, 5])) =
      (some (List.replicate 254 9), some [9, 9, 1, 1, 5], none) ∧
    ([9, 9, 1, 1, 5] : List Nat) ≠ [1, 1, 5] :=
  ⟨by decide, by decide, by decide⟩

/-- Claim C6: packShutdownScript always emits the address as a TLV
record — even a zero-length address — and then appends the extra opaque
tail unchanged: the blob it returns is byte-for-byte the packed address
record (type byte, length varint, payload) followed by the tail, and it
has positive length, so it is never empty. -/
theorem claim_C6 (addr : Option (List Nat)) (extra : List Nat) :
    packShutdownScript addr extra =
      .ok (0 :: (bigSize (addr.getD []).length ++ ((addr.getD []) ++ extra))) ∧
    0 < (0 :: (bigSize (addr.getD []).length ++ ((addr.getD []) ++ extra))).length :=
  ⟨packShutdownScript_eq addr extra, by simp⟩

/-- Claim C10: whenever parseShutdownScript reports an error, both other
results are nil: no address and no remainder blob are exposed alongside
an error. -/
theorem claim_C10 (blob : List Nat) (e : WireError)
    (h : (parseShutdownScript blob).2.2 = some e) :
    (parseShutdownScript blob).1 = none ∧ (parseShutdownScript blob).2.1 = none := by
  by_cases h0 : blob.length = 0
  · simp [parseShutdownScript, h0] at h
  · cases hex : ExtractRecords blob with
    | error e2 => simp [parseShutdownScript, h0, hex]
    | ok recs =>
      cases hl : lookupRecord DeliveryAddrType recs with
      | none => simp [parseShutdownScript, h0, hex, hl]
      | some addr => simp [parseShutdownScript, h0, hex, hl] at h

theorem claim_C10_witness :
    (parseShutdownScript [2, 1, 9]).2.2 = some .missingShutdownScriptRecord ∧
    ((parseShutdownScript [2, 1, 9]).1 = none ∧
      (parseShutdownScript [2, 1, 9]).2.1 = none) :=
  ⟨by decide, claim_C10 [2, 1, 9] .missingShutdownScriptRecord (by decide)⟩

/-- Claim C3: Encode writes the fixed fields in exactly the source
order — PendingChannelID, DustLimit, MaxValueInFlight, ChannelReserve,
HtlcMinimum, MinAcceptDepth, CsvDelay, MaxAcceptedHTLCs, FundingKey,
RevocationPoint, PaymentPoint, DelayedPaymentPoint, HtlcPoint,
FirstCommitmentPoint — and then the combined TLV blob as a
length-prefixed byte string. -/
theorem claim_C3 (a : AcceptChannel) (blob : List Nat) (pver : Nat)
    (hp : packShutdownScript a.UpfrontShutdownScript a.ExtraData = .ok blob)
    (hlen : blob.length < 65536) :
    encodeBytes a pver = .ok (a.PendingChannelID ++ (be 8 a.DustLimit ++
      (be 8 a.MaxValueInFlight ++ (be 8 a.ChannelReserve ++ (be 8 a.HtlcMinimum ++
      (be 4 a.MinAcceptDepth ++ (be 2 a.CsvDelay ++ (be 2 a.MaxAcceptedHTLCs ++
      (a.FundingKey ++ (a.RevocationPoint ++ (a.PaymentPoint ++
      (a.DelayedPaymentPoint ++ (a.HtlcPoint ++ (a.FirstCommitmentPoint ++
      (be 2 blob.length ++ blob))))))))))))))) :=
  encodeBytes_eq a blob pver hp hlen

theorem claim_C3_witness :
    packShutdownScript scenarioMsg.UpfrontShutdownScript scenarioMsg.ExtraData =
      .ok [0, 0] ∧
    encodeBytes scenarioMsg 0 = .ok (scenarioMsg.PendingChannelID ++
      (be 8 scenarioMsg.DustLimit ++ (be 8 scenarioMsg.MaxValueInFlight ++
      (be 8 scenarioMsg.ChannelReserve ++ (be 8 scenarioMsg.HtlcMinimum ++
      (be 4 scenarioMsg.MinAcceptDepth ++ (be 2 scenarioMsg.CsvDelay ++
      (be 2 scenarioMsg.MaxAcceptedHTLCs ++ (scenarioMsg.FundingKey ++
      (scenarioMsg.RevocationPoint ++ (scenarioMsg.PaymentPoint ++
      (scenarioMsg.DelayedPaymentPoint ++ (scenarioMsg.HtlcPoint ++
      (scenarioMsg.FirstCommitmentPoint ++
      (be 2 ([0, 0] : List Nat).length ++ [0, 0]))))))))))))))) :=
  ⟨by decide, claim_C3 scenarioMsg [0, 0] 0 (by decide) (by decide)⟩

/-- Claim C7: the empty TLV blob parses to no address (a nil slice), an
empty remainder and no error — the only legal absence — and a Decode
whose wire TLV section is the empty blob succeeds with no address and
no extra data. -/
theorem claim_C7 (pver : Nat) (cid : List Nat) (d mv cr hm mad csv mah : Nat)
    (k1 k2 k3 k4 k5 k6 rest : List Nat)
    (hcid : cid.length = 32)
    (hd : d < 2 ^ 64) (hmv : mv < 2 ^ 64) (hcr : cr < 2 ^ 64) (hhm : hm < 2 ^ 64)
    (hmad : mad < 2 ^ 32) (hcsv : csv < 2 ^ 16) (hmah : mah < 2 ^ 16)
    (h1 : validPoint k1 = true) (h2 : validPoint k2 = true)
    (h3 : validPoint k3 = true) (h4 : validPoint k4 = true)
    (h5 : validPoint k5 = true) (h6 : validPoint k6 = true) :
    parseShutdownScript [] = (none, some [], none) ∧
    AcceptChannel.Decode (cid ++ (be 8 d ++ (be 8 mv ++ (be 8 cr ++ (be 8 hm ++
        (be 4 mad ++ (be 2 csv ++ (be 2 mah ++ (k1 ++ (k2 ++ (k3 ++ (k4 ++ (k5 ++ (k6 ++
        (be 2 0 ++ rest))))))))))))))) pver =
      .ok ({ PendingChannelID := cid, DustLimit := d, MaxValueInFlight := mv,
             ChannelReserve := cr, HtlcMinimum := hm, MinAcceptDepth := mad,
             CsvDelay := csv, MaxAcceptedHTLCs := mah, FundingKey := k1,
             RevocationPoint := k2, PaymentPoint := k3, DelayedPaymentPoint := k4,
             HtlcPoint := k5, FirstCommitmentPoint := k6,
             UpfrontShutdownScript := none, ExtraData := [] }, rest) := by
  refine ⟨rfl, ?_⟩
  have h := Decode_concat pver cid d mv cr hm mad csv mah k1 k2 k3 k4 k5 k6 [] rest
    hcid hd hmv hcr hhm hmad hcsv hmah h1 h2 h3 h4 h5 h6 (by norm_num)
  rw [show parseShutdownScript [] = (none, some ([] : List Nat), none) from rfl] at h
  dsimp only at h
  simpa using h

theorem claim_C7_witness :
    validPoint zKey = true ∧
    (parseShutdownScript [] = (none, some [], none) ∧
    AcceptChannel.Decode (List.replicate 32 0 ++ (be 8 546 ++ (be 8 1000000000 ++
        (be 8 9835 ++ (be 8 1 ++ (be 4 3 ++ (be 2 144 ++ (be 2 30 ++ (zKey ++ (zKey ++
        (zKey ++ (zKey ++ (zKey ++ (zKey ++ (be 2 0 ++ []))))))))))))))) 0 =
      .ok ({ PendingChannelID := List.replicate 32 0, DustLimit := 546,
             MaxValueInFlight := 1000000000, ChannelReserve := 9835, HtlcMinimum := 1,
             MinAcceptDepth := 3, CsvDelay := 144, MaxAcceptedHTLCs := 30,
             FundingKey := zKey, RevocationPoint := zKey, PaymentPoint := zKey,
             DelayedPaymentPoint := zKey, HtlcPoint := zKey, FirstCommitmentPoint := zKey,
             UpfrontShutdownScript := none, ExtraData := [] }, [])) :=
  ⟨by decide,
    claim_C7 0 (List.replicate 32 0) 546 1000000000 9835 1 3 144 30
      zKey zKey zKey zKey zKey zKey [] (by decide) (by decide) (by decide)
      (by decide) (by decide) (by decide) (by decide) (by decide) (by decide)
      (by decide) (by decide) (by decide) (by decide) (by decide)⟩

/-- Claim C8: for every input whose fixed-width numeric section is
present and whose six 33-byte public-key slots are not all valid curve
points, Decode fails with MalformedPublicKey; in this functional
embedding an error return carries no message, so no partially populated
message is exposed. -/
theorem claim_C8 (pver : Nat)
    (cid f1 f2 f3 f4 f5 f6 f7 k1 k2 k3 k4 k5 k6 rest : List Nat)
    (hcid : cid.length = 32)
    (hf1 : f1.length = 8) (hf2 : f2.length = 8) (hf3 : f3.length = 8)
    (hf4 : f4.length = 8) (hf5 : f5.length = 4) (hf6 : f6.length = 2)
    (hf7 : f7.length = 2)
    (hk1 : k1.length = 33) (hk2 : k2.length = 33) (hk3 : k3.length = 33)
    (hk4 : k4.length = 33) (hk5 : k5.length = 33) (hk6 : k6.length = 33)
    (hbad : ¬(validPoint k1 = true ∧ validPoint k2 = true ∧ validPoint k3 = true ∧
        validPoint k4 = true ∧ validPoint k5 = true ∧ validPoint k6 = true)) :
    AcceptChannel.Decode (cid ++ (f1 ++ (f2 ++ (f3 ++ (f4 ++ (f5 ++ (f6 ++ (f7 ++
        (k1 ++ (k2 ++ (k3 ++ (k4 ++ (k5 ++ (k6 ++ rest)))))))))))))) pver =
      .error .malformedPublicKey := by
  simp only [AcceptChannel.Decode, bindOk,
    readBytes_append _ _ _ hcid,
    readUint_append _ _ _ hf1, readUint_append _ _ _ hf2, readUint_append _ _ _ hf3,
    readUint_append _ _ _ hf4, readUint_append _ _ _ hf5, readUint_append _ _ _ hf6,
    readUint_append _ _ _ hf7]
  by_cases v1 : validPoint k1 = true
  · simp only [readPublicKey_valid _ _ v1, bindOk]
    by_cases v2 : validPoint k2 = true
    · simp only [readPublicKey_valid _ _ v2, bindOk]
      by_cases v3 : validPoint k3 = true
      · simp only [readPublicKey_valid _ _ v3, bindOk]
        by_cases v4 : validPoint k4 = true
        · simp only [readPublicKey_valid _ _ v4, bindOk]
          by_cases v5 : validPoint k5 = true
          · simp only [readPublicKey_valid _ _ v5, bindOk]
            by_cases v6 : validPoint k6 = true
            · exact absurd ⟨v1, v2, v3, v4, v5, v6⟩ hbad
            · have h6f : validPoint k6 = false := by simpa using v6
              simp only [readPublicKey_invalid _ _ hk6 h6f, bindErr]
          · have h5f : validPoint k5 = false := by simpa using v5
            simp only [readPublicKey_invalid _ _ hk5 h5f, bindErr]
        · have h4f : validPoint k4 = false := by simpa using v4
          simp only [readPublicKey_invalid _ _ hk4 h4f, bindErr]
      · have h3f : validPoint k3 = false := by simpa using v3
        simp only [readPublicKey_invalid _ _ hk3 h3f, bindErr]
    · have h2f : validPoint k2 = false := by simpa using v2
      simp only [readPublicKey_invalid _ _ hk2 h2f, bindErr]
  · have h1f : validPoint k1 = false := by simpa using v1
    simp only [readPublicKey_invalid _ _ hk1 h1f, bindErr]

/-- A 33-byte string of zero bytes: not a valid compressed point. -/
def badKey : List Nat := List.replicate 33 0

theorem claim_C8_witness :
    (¬(validPoint badKey = true ∧ validPoint badKey = true ∧ validPoint badKey = true ∧
        validPoint badKey = true ∧ validPoint badKey = true ∧ validPoint badKey = true)) ∧
    AcceptChannel.Decode (List.replicate 32 0 ++ (List.replicate 8 0 ++
        (List.replicate 8 0 ++ (List.replicate 8 0 ++ (List.replicate 8 0 ++
        (List.replicate 4 0 ++ (List.replicate 2 0 ++ (List.replicate 2 0 ++
        (badKey ++ (badKey ++ (badKey ++ (badKey ++ (badKey ++ (badKey ++
        [])))))))))))))) 0 = .error .malformedPublicKey :=
  ⟨by decide,
    claim_C8 0 (List.replicate 32 0) (List.replicate 8 0) (List.replicate 8 0)
      (List.replicate 8 0) (List.replicate 8 0) (List.replicate 4 0)
      (List.replicate 2 0) (List.replicate 2 0) badKey badKey badKey badKey badKey
      badKey [] (by decide) (by decide) (by decide) (by decide) (by decide)
      (by decide) (by decide) (by decide) (by decide) (by decide) (by decide)
      (by decide) (by decide) (by decide) (by decide)⟩

/-- Claim C9: Encode never mutates its receiver. Mutation is made
statable by threading the receiver through the encoder state: on the
success path and on the error path alike, the receiver component of the
final state is the original message, every field unchanged. -/
theorem claim_C9 (a : AcceptChannel) (w : List Nat) (pver : Nat) :
    ((AcceptChannel.Encode a w pver).2).receiver = a := by
  rw [AcceptChannel.Encode, packShutdownScript]
  dsimp only
  split <;> rfl

/-- Claim C1 (amended): for every valid populated AcceptChannel message
— six valid public keys, channel id of 32 bytes, numeric fields within
their wire widths, an explicitly present shutdown script of at most 252
bytes, extra data that is a valid ascending record sequence with type
ids above the address type, and a TLV blob that fits its length
prefix — decoding the bytes produced by encoding the message yields the
message back field-for-field with no input left over; in particular an
empty script is recovered as explicitly empty, since the encoded blob is
never empty. For a script of 253 bytes or more the decoded ExtraData
gains two stray bytes, so the unamended claim fails. -/
theorem claim_C1 (m : AcceptChannel) (s : List Nat)
    (recs : List (Nat × List Nat)) (pver : Nat)
    (hcid : m.PendingChannelID.length = 32)
    (hd : m.DustLimit < 2 ^ 64) (hmv : m.MaxValueInFlight < 2 ^ 64)
    (hcr : m.ChannelReserve < 2 ^ 64) (hhm : m.HtlcMinimum < 2 ^ 64)
    (hmad : m.MinAcceptDepth < 2 ^ 32) (hcsv : m.CsvDelay < 2 ^ 16)
    (hmah : m.MaxAcceptedHTLCs < 2 ^ 16)
    (h1 : validPoint m.FundingKey = true) (h2 : validPoint m.RevocationPoint = true)
    (h3 : validPoint m.PaymentPoint = true)
    (h4 : validPoint m.DelayedPaymentPoint = true)
    (h5 : validPoint m.HtlcPoint = true)
    (h6 : validPoint m.FirstCommitmentPoint = true)
    (hs : m.UpfrontShutdownScript = some s) (hslen : s.length ≤ 252)
    (hx : decodeRecordList m.ExtraData = some recs)
    (hasc : ascendingAfter 0 recs = true)
    (hfit : 2 + s.length + m.ExtraData.length < 65536) :
    ∃ bytes, encodeBytes m pver = .ok bytes ∧
      AcceptChannel.Decode bytes pver = .ok (m, []) := by
  obtain ⟨cid, d, mv, cr, hm, mad, csv, mah, k1, k2, k3, k4, k5, k6, up, ex⟩ := m
  dsimp only at *
  subst hs
  have hpack : packShutdownScript (some s) ex =
      .ok (0 :: (bigSize s.length ++ (s ++ ex))) := by
    simpa using packShutdownScript_eq (some s) ex
  have hBlen : (0 :: (bigSize s.length ++ (s ++ ex))).length < 65536 := by
    rw [bigSize_small s.length (by omega)]
    simp only [List.length_cons, List.length_append, List.length_singleton,
      List.length_nil]
    omega
  have henc := encodeBytes_eq
    ⟨cid, d, mv, cr, hm, mad, csv, mah, k1, k2, k3, k4, k5, k6, some s, ex⟩
    (0 :: (bigSize s.length ++ (s ++ ex))) pver hpack hBlen
  dsimp only at henc
  have hdec := Decode_concat pver cid d mv cr hm mad csv mah k1 k2 k3 k4 k5 k6
    (0 :: (bigSize s.length ++ (s ++ ex))) []
    hcid hd hmv hcr hhm hmad hcsv hmah h1 h2 h3 h4 h5 h6 hBlen
  rw [List.append_nil, parse_pack s ex recs hslen hx hasc] at hdec
  dsimp only at hdec
  exact ⟨_, henc, hdec⟩

theorem claim_C1_witness :
    validPoint scenarioMsg.FundingKey = true ∧
    scenarioMsg.UpfrontShutdownScript = some [] ∧
    (∃ bytes, encodeBytes scenarioMsg 0 = .ok bytes ∧
      AcceptChannel.Decode bytes 0 = .ok (scenarioMsg, [])) :=
  ⟨by decide, by decide,
    claim_C1 scenarioMsg [] [] 0 (by decide) (by decide) (by decide) (by decide)
      (by decide) (by decide) (by decide) (by decide) (by decide) (by decide)
      (by decide) (by decide) (by decide) (by decide) (by decide) (by decide)
      (by decide) (by decide) (by decide)⟩

/-- Claim C1 counterexample: the scenario message with a 253-byte
shutdown script — all keys valid, everything populated — does not
survive the round trip: encoding succeeds, but decoding the bytes
returns a message whose ExtraData has gained two bytes, so the result
is not the original message. -/
theorem claim_C1_cex :
    (match encodeBytes longScriptMsg 0 with
     | .ok bytes => AcceptChannel.Decode bytes 0
     | .error e => .error e) ≠ .ok (longScriptMsg, []) := by
  decide
